import Mathlib

/-!
Verification of the PromptLibrary repository core: the prompt registry
(`promptlibrary/prompt_manager.py`), the prompt data model and template
formatting (`promptlibrary/models.py`), the JSON-schema builder
(`promptlibrary/schema.py`), and the LLM dispatch / schema-generation
helpers (`promptlibrary/llm.py`).

Python dictionaries are embedded as association lists with
insertion-order-preserving, replace-on-duplicate insertion (the semantics
of `d[k] = v` on a `dict`); Python strings are embedded as `List Char`
where character-level reasoning is needed and as `String` elsewhere.
-/

namespace PromptLibrary

/-! ## Python dict model -/

/-- `d[k] = v` on a Python dict: replaces in place if `k` is present
(keeping its position), otherwise appends at the end. -/
def dictInsert {α : Type} (k : String) (v : α) : List (String × α) → List (String × α)
| [] => [(k, v)]
| (k', v') :: rest => if k' = k then (k, v) :: rest else (k', v') :: dictInsert k v rest

/-- `d.get(k)` on a Python dict (`None` when absent). -/
def dictGet {α : Type} (k : String) : List (String × α) → Option α
| [] => none
| (k', v') :: rest => if k' = k then some v' else dictGet k rest

/-- `d.values()` on a Python dict. -/
def dictValues {α : Type} (d : List (String × α)) : List α := d.map Prod.snd

/-- `list(d.keys())` on a Python dict. -/
def dictKeys {α : Type} (d : List (String × α)) : List String := d.map Prod.fst

theorem dictInsert_cons_eq {α : Type} (k : String) (v v' : α) (rest : List (String × α)) :
    dictInsert k v ((k, v') :: rest) = (k, v) :: rest := by
  simp [dictInsert]

theorem dictInsert_cons_ne {α : Type} (k k' : String) (v v' : α) (rest : List (String × α))
    (hk : k' ≠ k) : dictInsert k v ((k', v') :: rest) = (k', v') :: dictInsert k v rest := by
  simp [dictInsert, hk]

theorem dictGet_dictInsert_self {α : Type} (k : String) (v : α) (d : List (String × α)) :
    dictGet k (dictInsert k v d) = some v := by
  induction d with
  | nil => simp [dictInsert, dictGet]
  | cons e rest ih =>
    obtain ⟨k', v'⟩ := e
    by_cases h : k' = k
    · simp [dictInsert, dictGet, h]
    · simp [dictInsert, dictGet, h, ih]

theorem dictGet_dictInsert_ne {α : Type} (k q : String) (v : α) (d : List (String × α))
    (h : q ≠ k) : dictGet q (dictInsert k v d) = dictGet q d := by
  have hkq : ¬ (k = q) := fun hh => h hh.symm
  induction d with
  | nil => simp [dictInsert, dictGet, hkq]
  | cons e rest ih =>
    obtain ⟨k', v'⟩ := e
    by_cases hk : k' = k
    · simp [dictInsert, dictGet, hk, hkq]
    · by_cases hq : k' = q
      · simp [dictInsert, dictGet, hk, hq, h]
      · simp [dictInsert, dictGet, hk, hq, ih]

theorem mem_dictKeys_dictInsert {α : Type} (k x : String) (v : α) (d : List (String × α))
    (hx : x ∈ dictKeys (dictInsert k v d)) : x ∈ dictKeys d ∨ x = k := by
  induction d with
  | nil => simp [dictInsert, dictKeys] at hx; simp [hx]
  | cons e rest ih =>
    obtain ⟨k', v'⟩ := e
    by_cases h : k' = k
    · simp [dictInsert, dictKeys, h] at hx
      rcases hx with hx | hx
      · exact Or.inr hx
      · exact Or.inl (by simp [dictKeys, hx])
    · simp [dictInsert, dictKeys, h] at hx
      rcases hx with hx | hx
      · exact Or.inl (by simp [dictKeys, hx])
      · rcases ih (by simpa [dictKeys] using hx) with h' | h'
        · exact Or.inl (by simp [dictKeys] at h' ⊢; exact Or.inr h')
        · exact Or.inr h'

theorem dictKeys_nodup_dictInsert {α : Type} (k : String) (v : α) (d : List (String × α))
    (h : (dictKeys d).Nodup) : (dictKeys (dictInsert k v d)).Nodup := by
  induction d with
  | nil => simp [dictInsert, dictKeys]
  | cons e rest ih =>
    obtain ⟨k', v'⟩ := e
    simp only [dictKeys, List.map_cons, List.nodup_cons] at h
    by_cases hk : k' = k
    · subst hk
      rw [dictInsert_cons_eq]
      simp only [dictKeys, List.map_cons, List.nodup_cons]
      exact ⟨h.1, h.2⟩
    · rw [dictInsert_cons_ne k k' v v' rest hk]
      simp only [dictKeys, List.map_cons, List.nodup_cons]
      refine ⟨?_, by simpa [dictKeys] using ih (by simpa [dictKeys] using h.2)⟩
      intro hmem
      rcases mem_dictKeys_dictInsert k k' v rest (by simpa [dictKeys] using hmem) with h' | h'
      · exact h.1 (by simpa [dictKeys] using h')
      · exact hk h'

theorem countP_key_eq_zero {α : Type} (k : String) (d : List (String × α))
    (h : k ∉ dictKeys d) : d.countP (fun e => decide (e.1 = k)) = 0 := by
  induction d with
  | nil => simp
  | cons e rest ih =>
    obtain ⟨k', v'⟩ := e
    simp only [dictKeys, List.map_cons, List.mem_cons] at h
    push_neg at h
    have hne : ¬ (k' = k) := Ne.symm h.1
    rw [List.countP_cons]
    simp [hne, ih (by simpa [dictKeys] using h.2)]

theorem countP_key_dictInsert {α : Type} (k : String) (v : α) (d : List (String × α))
    (h : (dictKeys d).Nodup) :
    (dictInsert k v d).countP (fun e => decide (e.1 = k)) = 1 := by
  induction d with
  | nil => simp [dictInsert]
  | cons e rest ih =>
    obtain ⟨k', v'⟩ := e
    simp only [dictKeys, List.map_cons, List.nodup_cons] at h
    by_cases hk : k' = k
    · subst hk
      rw [dictInsert_cons_eq, List.countP_cons]
      have h0 := countP_key_eq_zero k' rest (by simpa [dictKeys] using h.1)
      simp [h0]
    · rw [dictInsert_cons_ne k k' v v' rest hk, List.countP_cons]
      have h1 := ih (by simpa [dictKeys] using h.2)
      simp [hk, h1]

/-! ## Prompt data model (`promptlibrary/models.py`) -/

/-- `PromptCategory` enumeration. -/
inductive PromptCategory
| coding
| writing
| analysis
| chat
| system
| general
| philosophical
deriving DecidableEq, Repr

/-- The `Prompt` dataclass. The template is kept at character level so
that placeholder substitution can be reasoned about. -/
structure Prompt where
  template : List Char
  category : PromptCategory
  name : String
  description : String
  tags : List String
  model_compatibility : List String
  parameters : List (String × String)
  version : String
deriving DecidableEq, Repr

/-! ## PromptManager (`promptlibrary/prompt_manager.py`) -/

/-- The `prompts` dict of a `PromptManager`. -/
abbrev PromptManager := List (String × Prompt)

/-- `PromptManager.add_prompt`: `self.prompts[prompt.name] = prompt`. -/
def addPrompt (m : PromptManager) (p : Prompt) : PromptManager :=
  dictInsert p.name p m

/-- `PromptManager.get_prompt`: `self.prompts.get(name)`. -/
def getPrompt (m : PromptManager) (name : String) : Option Prompt :=
  dictGet name m

/-- `PromptManager.get_prompts_by_category`. -/
def getPromptsByCategory (m : PromptManager) (c : PromptCategory) : List Prompt :=
  (dictValues m).filter (fun p => decide (p.category = c))

/-- `PromptManager.get_prompts_by_tag`:
`[p for p in self.prompts.values() if tag in p.tags]`. -/
def getPromptsByTag (m : PromptManager) (tag : String) : List Prompt :=
  (dictValues m).filter (fun p => decide (tag ∈ p.tags))

/-! ## Registry claims -/

/-- C5: inserting two Prompts sharing one name leaves exactly one entry
under that name and `get_prompt` returns the second one (last-write-wins;
`add_prompt` is total and returns nothing). -/
theorem addPrompt_duplicate_name_replaces (m : PromptManager) (p p' : Prompt)
    (hnodup : (dictKeys m).Nodup) (hname : p.name = p'.name) :
    (addPrompt (addPrompt m p) p').countP (fun e => decide (e.1 = p'.name)) = 1 ∧
    getPrompt (addPrompt (addPrompt m p) p') p'.name = some p' := by
  constructor
  · exact countP_key_dictInsert p'.name p' (addPrompt m p)
      (dictKeys_nodup_dictInsert p.name p m hnodup)
  · exact dictGet_dictInsert_self p'.name p' (addPrompt m p)

/-- Sample prompt used to instantiate the registry theorems. -/
def pTest1 : Prompt :=
  ⟨"hello".data, PromptCategory.general, "greet", "a greeting", ["tag1"], [], [], "1.0"⟩

/-- Second sample prompt with the same name as `pTest1`. -/
def pTest2 : Prompt :=
  ⟨"hi".data, PromptCategory.chat, "greet", "another greeting", ["tag2"], [], [], "1.1"⟩

/-- Third sample prompt with a distinct name. -/
def pTest3 : Prompt :=
  ⟨"bye".data, PromptCategory.chat, "farewell", "a farewell", ["tag1", "tag3"], [], [], "1.0"⟩

theorem addPrompt_duplicate_name_replaces_witness :
    (addPrompt (addPrompt [] pTest1) pTest2).countP (fun e => decide (e.1 = pTest2.name)) = 1 ∧
    getPrompt (addPrompt (addPrompt [] pTest1) pTest2) pTest2.name = some pTest2 :=
  addPrompt_duplicate_name_replaces [] pTest1 pTest2 (by decide) (by decide)

/-- C9: adding prompts under two distinct names does not cross-contaminate:
each name still maps to its own prompt. -/
theorem addPrompt_distinct_names_frame (m : PromptManager) (p1 p2 : Prompt)
    (h : p1.name ≠ p2.name) :
    getPrompt (addPrompt (addPrompt m p1) p2) p1.name = some p1 ∧
    getPrompt (addPrompt (addPrompt m p1) p2) p2.name = some p2 := by
  constructor
  · have h1 : dictGet p1.name (dictInsert p2.name p2 (addPrompt m p1)) =
        dictGet p1.name (addPrompt m p1) :=
      dictGet_dictInsert_ne p2.name p1.name p2 (addPrompt m p1) h
    exact h1.trans (dictGet_dictInsert_self p1.name p1 m)
  · exact dictGet_dictInsert_self p2.name p2 (addPrompt m p1)

theorem addPrompt_distinct_names_frame_witness :
    getPrompt (addPrompt (addPrompt [] pTest1) pTest3) pTest1.name = some pTest1 ∧
    getPrompt (addPrompt (addPrompt [] pTest1) pTest3) pTest3.name = some pTest3 :=
  addPrompt_distinct_names_frame [] pTest1 pTest3 (by decide)

/-- C8: `get_prompts_by_tag` returns exactly the registered prompts whose
tag list contains the tag as an exact string element, and the empty list
when no registered prompt carries the tag. -/
theorem getPromptsByTag_exact_match (m : PromptManager) (t : String) :
    (∀ p : Prompt, p ∈ getPromptsByTag m t ↔ p ∈ dictValues m ∧ t ∈ p.tags) ∧
    ((∀ p ∈ dictValues m, t ∉ p.tags) → getPromptsByTag m t = []) := by
  constructor
  · intro p
    simp [getPromptsByTag, List.mem_filter]
  · intro hnone
    refine List.filter_eq_nil_iff.mpr ?_
    intro p hp
    simp [hnone p hp]

theorem getPromptsByTag_exact_match_witness :
    pTest3 ∈ getPromptsByTag (addPrompt (addPrompt [] pTest1) pTest3) "tag3" :=
  ((getPromptsByTag_exact_match (addPrompt (addPrompt [] pTest1) pTest3) "tag3").1 pTest3).mpr
    (by constructor <;> decide)

/-! ## Schema data model (`promptlibrary/schema.py`) -/

/-- Values occurring in the nested-map representation handled by
`Schema.to_dict` / `Schema.from_dict`: strings, lists of strings, and
nested string-keyed dicts. -/
inductive SVal
| str (s : String)
| strList (xs : List String)
| dict (d : List (String × SVal))

/-- The `SchemaProperty` class: `type`/`description` are always present;
`enum`, `items`, `properties` are optional (`None` by default). `items`
and `properties` are plain dicts that are carried through unparsed. -/
structure SchemaProperty where
  type : String
  description : String
  enum : Option (List String)
  items : Option (List (String × SVal))
  properties : Option (List (String × SVal))

/-- `SchemaProperty.to_dict`: always emits `type` and `description`;
emits `enum`/`items`/`properties` only when set. -/
def SchemaProperty.to_dict (p : SchemaProperty) : List (String × SVal) :=
  [("type", SVal.str p.type), ("description", SVal.str p.description)]
  ++ (match p.enum with
      | some e => [("enum", SVal.strList e)]
      | Option.none => [])
  ++ (match p.items with
      | some i => [("items", SVal.dict i)]
      | Option.none => [])
  ++ (match p.properties with
      | some pr => [("properties", SVal.dict pr)]
      | Option.none => [])

/-- The `Schema` class (fields as stored on the instance). -/
structure Schema where
  name : String
  description : String
  properties : List (String × SchemaProperty)
  required : List String

/-- `Schema.__init__`: `self.required = required or list(properties.keys())`.
A `None` or empty (falsy) `required` is replaced by all property names. -/
def Schema.init (name description : String) (properties : List (String × SchemaProperty))
    (required : Option (List String)) : Schema :=
  ⟨name, description, properties,
   match required with
   | some (r :: rs) => r :: rs
   | _ => dictKeys properties⟩

/-- `Schema.to_dict`. -/
def Schema.to_dict (s : Schema) : SVal :=
  SVal.dict
    [("name", SVal.str s.name),
     ("description", SVal.str s.description),
     ("parameters", SVal.dict
       [("type", SVal.str "object"),
        ("required", SVal.strList s.required),
        ("properties", SVal.dict
          (s.properties.map (fun e => (e.1, SVal.dict (SchemaProperty.to_dict e.2)))))])]

/-- The per-property parsing step of `Schema.from_dict`:
`prop_data["type"]` (required), `prop_data.get("description", "")`,
and `.get` for `enum`/`items`/`properties`. `Option.none` models the
`KeyError` raised when `type` is absent (or a shape the typed model
cannot hold). -/
def SchemaProperty.from_dict (d : List (String × SVal)) : Option SchemaProperty := do
  let t ← match dictGet "type" d with
    | some (SVal.str s) => some s
    | _ => Option.none
  let desc ← match dictGet "description" d with
    | some (SVal.str s) => some s
    | Option.none => some ""
    | some _ => Option.none
  let en ← match dictGet "enum" d with
    | some (SVal.strList xs) => some (some xs)
    | Option.none => some Option.none
    | some _ => Option.none
  let it ← match dictGet "items" d with
    | some (SVal.dict dd) => some (some dd)
    | Option.none => some Option.none
    | some _ => Option.none
  let pr ← match dictGet "properties" d with
    | some (SVal.dict dd) => some (some dd)
    | Option.none => some Option.none
    | some _ => Option.none
  some ⟨t, desc, en, it, pr⟩

/-- The property loop of `Schema.from_dict`: `properties = {}` followed by
`properties[prop_name] = SchemaProperty(...)` over `params["properties"].items()`. -/
def parsePropsGo (acc : List (String × SchemaProperty)) :
    List (String × SVal) → Option (List (String × SchemaProperty))
| [] => some acc
| (n, pv) :: rest =>
  match pv with
  | SVal.dict pd =>
    match SchemaProperty.from_dict pd with
    | some p => parsePropsGo (dictInsert n p acc) rest
    | Option.none => Option.none
  | _ => Option.none

/-- `Schema.from_dict`. `Option.none` models the `KeyError`/shape faults
raised on inputs that do not have the documented shape. -/
def Schema.from_dict (v : SVal) : Option Schema := do
  let d ← match v with
    | SVal.dict d => some d
    | _ => Option.none
  let name ← match dictGet "name" d with
    | some (SVal.str s) => some s
    | _ => Option.none
  let description ← match dictGet "description" d with
    | some (SVal.str s) => some s
    | _ => Option.none
  let params ← match dictGet "parameters" d with
    | some (SVal.dict p) => some p
    | _ => Option.none
  let propsD ← match dictGet "properties" params with
    | some (SVal.dict p) => some p
    | _ => Option.none
  let properties ← parsePropsGo [] propsD
  let required ← match dictGet "required" params with
    | some (SVal.strList r) => some r
    | Option.none => some (dictKeys properties)
    | some _ => Option.none
  some (Schema.init name description properties (some required))

/-! ## Schema round-trip -/

theorem schemaProperty_parse_emit (p : SchemaProperty) :
    SchemaProperty.from_dict p.to_dict = some p := by
  rcases p with ⟨t, d, e, i, pr⟩
  cases e <;> cases i <;> cases pr <;> rfl

theorem dictInsert_eq_append {α : Type} (k : String) (v : α) (d : List (String × α))
    (h : k ∉ dictKeys d) : dictInsert k v d = d ++ [(k, v)] := by
  induction d with
  | nil => simp [dictInsert]
  | cons e rest ih =>
    obtain ⟨k', v'⟩ := e
    simp only [dictKeys, List.map_cons, List.mem_cons] at h
    push_neg at h
    rw [dictInsert_cons_ne k k' v v' rest (Ne.symm h.1)]
    simp [ih (by simpa [dictKeys] using h.2)]

theorem dictKeys_append {α : Type} (a b : List (String × α)) :
    dictKeys (a ++ b) = dictKeys a ++ dictKeys b := by
  simp [dictKeys]

theorem parsePropsGo_roundtrip (props : List (String × SchemaProperty))
    (acc : List (String × SchemaProperty))
    (h : (dictKeys acc ++ dictKeys props).Nodup) :
    parsePropsGo acc (props.map (fun e => (e.1, SVal.dict (SchemaProperty.to_dict e.2)))) =
      some (acc ++ props) := by
  induction props generalizing acc with
  | nil => simp [parsePropsGo]
  | cons e rest ih =>
    obtain ⟨n, p⟩ := e
    simp only [List.map_cons, parsePropsGo, schemaProperty_parse_emit]
    have hmid : (n :: (dictKeys acc ++ dictKeys rest)).Nodup := by
      refine List.nodup_middle.mp ?_
      simpa [dictKeys] using h
    have hn : n ∉ dictKeys acc := by
      have := (List.nodup_cons.mp hmid).1
      intro hmem
      exact this (List.mem_append.mpr (Or.inl hmem))
    rw [dictInsert_eq_append n p acc hn]
    have hnext : (dictKeys (acc ++ [(n, p)]) ++ dictKeys rest).Nodup := by
      rw [dictKeys_append, List.append_assoc]
      show (dictKeys acc ++ (dictKeys [(n, p)] ++ dictKeys rest)).Nodup
      have : dictKeys [(n, p)] ++ dictKeys rest = dictKeys ((n, p) :: rest) := by
        simp [dictKeys]
      rw [this]
      exact h
    rw [ih (acc ++ [(n, p)]) hnext]
    simp

theorem Schema.init_required_idem (name description : String)
    (props : List (String × SchemaProperty)) (req : Option (List String)) :
    Schema.init name description props
        (some ((Schema.init name description props req).required)) =
      Schema.init name description props req := by
  rcases req with _ | r
  · show Schema.init name description props (some (dictKeys props)) = _
    cases hk : dictKeys props with
    | nil => simp [Schema.init, hk]
    | cons a as => simp [Schema.init, hk]
  · cases r with
    | nil =>
      show Schema.init name description props (some (dictKeys props)) = _
      cases hk : dictKeys props with
      | nil => simp [Schema.init, hk]
      | cons a as => simp [Schema.init, hk]
    | cons a as => rfl

theorem schema_parse_emit (name description : String)
    (props : List (String × SchemaProperty)) (req : Option (List String))
    (hnodup : (dictKeys props).Nodup) :
    Schema.from_dict ((Schema.init name description props req).to_dict) =
      some (Schema.init name description props req) := by
  have key : Schema.from_dict ((Schema.init name description props req).to_dict) =
      Option.bind
        (parsePropsGo []
          (props.map (fun e => (e.1, SVal.dict (SchemaProperty.to_dict e.2)))))
        (fun properties =>
          some (Schema.init name description properties
            (some ((Schema.init name description props req).required)))) := rfl
  rw [key, parsePropsGo_roundtrip props [] (by simpa [dictKeys] using hnodup)]
  exact congrArg some (Schema.init_required_idem name description props req)

/-- C1: for every Schema built by the constructor (from properties using
only the documented fields, with no duplicate property names),
`from_dict` applied to `to_dict` output succeeds and reproduces a Schema
with identical `to_dict` output. -/
theorem schema_to_dict_roundtrip (name description : String)
    (props : List (String × SchemaProperty)) (req : Option (List String))
    (hnodup : (dictKeys props).Nodup) :
    ∃ s', Schema.from_dict ((Schema.init name description props req).to_dict) = some s' ∧
      Schema.to_dict s' = Schema.to_dict (Schema.init name description props req) :=
  ⟨Schema.init name description props req,
   schema_parse_emit name description props req hnodup, rfl⟩

/-- Sample schema property (`SchemaProperty("string", "City name")`). -/
def weatherProp : SchemaProperty :=
  ⟨"string", "City name", Option.none, Option.none, Option.none⟩

theorem schema_to_dict_roundtrip_witness :
    ∃ s', Schema.from_dict ((Schema.init "get_weather" "Get current weather"
        [("location", weatherProp)] Option.none).to_dict) = some s' ∧
      Schema.to_dict s' = Schema.to_dict (Schema.init "get_weather" "Get current weather"
        [("location", weatherProp)] Option.none) :=
  schema_to_dict_roundtrip "get_weather" "Get current weather"
    [("location", weatherProp)] Option.none (by decide)

/-- C10: the constructor replaces a falsy `required` (explicit `[]`, and
likewise `None`) by the full list of property names, so for non-empty
properties the resulting `required` is never empty. -/
theorem schema_init_falsy_required (name description : String)
    (props : List (String × SchemaProperty)) (h : props ≠ []) :
    (Schema.init name description props (some [])).required = dictKeys props ∧
    (Schema.init name description props Option.none).required = dictKeys props ∧
    (Schema.init name description props (some [])).required ≠ [] := by
  refine ⟨rfl, rfl, ?_⟩
  show dictKeys props ≠ []
  simpa [dictKeys] using h

theorem schema_init_falsy_required_witness :
    (Schema.init "f" "d" [("location", weatherProp)] (some [])).required =
      dictKeys [("location", weatherProp)] ∧
    (Schema.init "f" "d" [("location", weatherProp)] Option.none).required =
      dictKeys [("location", weatherProp)] ∧
    (Schema.init "f" "d" [("location", weatherProp)] (some [])).required ≠ [] :=
  schema_init_falsy_required "f" "d" [("location", weatherProp)] (List.cons_ne_nil _ _)

/-! ## Template formatting (`Prompt.format` = `self.template.format(**kwargs)`)

The CPython `str.format` machinery is embedded as a scan of the template
into literal characters and replacement fields, followed by substitution.
`\x7b\x7b` and `\x7d\x7d` are escapes for literal braces; an unbalanced
brace is a `ValueError`; an auto-numbering / positional field with only
keyword arguments is an `IndexError`; a named field with no matching
keyword argument is a `KeyError` (the MissingParameter kind). -/

inductive FormatTok
| lit (c : Char)
| field (name : List Char)
deriving DecidableEq, Repr

inductive FormatErr
| missingParameter (name : List Char)
| valueError
| indexError
deriving DecidableEq, Repr

/-- The scanning pass of `str.format`: mode `Option.none` is literal text,
mode `some acc` is inside a replacement field whose name so far is `acc`.
Result `Option.none` models `ValueError` (unbalanced brace). -/
def scanFormat : Option (List Char) → List Char → Option (List FormatTok)
| Option.none, [] => some []
| Option.none, '{' :: '{' :: rest =>
  (scanFormat Option.none rest).map (fun ts => FormatTok.lit '{' :: ts)
| Option.none, '{' :: rest => scanFormat (some []) rest
| Option.none, '}' :: '}' :: rest =>
  (scanFormat Option.none rest).map (fun ts => FormatTok.lit '}' :: ts)
| Option.none, '}' :: _ => Option.none
| Option.none, c :: rest =>
  (scanFormat Option.none rest).map (fun ts => FormatTok.lit c :: ts)
| some _, [] => Option.none
| some acc, '}' :: rest =>
  (scanFormat Option.none rest).map (fun ts => FormatTok.field acc :: ts)
| some acc, c :: rest => scanFormat (some (acc ++ [c])) rest

/-- Tokenizing a whole template starts in literal-text mode. -/
def tokenize (t : List Char) : Option (List FormatTok) :=
  scanFormat Option.none t

/-- Keyword-argument lookup (`kwargs[name]`). -/
def lookupArg (n : List Char) : List (List Char × List Char) → Option (List Char)
| [] => Option.none
| (k, v) :: rest => if k = n then some v else lookupArg n rest

/-- The substitution pass of `str.format` over the scanned tokens. -/
def renderToks (args : List (List Char × List Char)) :
    List FormatTok → Except FormatErr (List Char)
| [] => Except.ok []
| FormatTok.lit c :: rest => (renderToks args rest).map (fun s => c :: s)
| FormatTok.field n :: rest =>
  if n.all Char.isDigit then Except.error FormatErr.indexError
  else
    match lookupArg n args with
    | some v => (renderToks args rest).map (fun s => v ++ s)
    | Option.none => Except.error (FormatErr.missingParameter n)

/-- `template.format(**kwargs)`. -/
def pyFormat (t : List Char) (args : List (List Char × List Char)) :
    Except FormatErr (List Char) :=
  match tokenize t with
  | some toks => renderToks args toks
  | Option.none => Except.error FormatErr.valueError

/-- `Prompt.format`: `self.template.format(**kwargs)`. -/
def Prompt.format (p : Prompt) (args : List (List Char × List Char)) :
    Except FormatErr (List Char) :=
  pyFormat p.template args

/-- Names of the replacement fields among the scanned tokens. -/
def tokNames : List FormatTok → List (List Char)
| [] => []
| FormatTok.lit _ :: rest => tokNames rest
| FormatTok.field n :: rest => n :: tokNames rest

/-- The placeholders of a template (empty for a malformed template). -/
def placeholders (t : List Char) : List (List Char) :=
  match tokenize t with
  | some toks => tokNames toks
  | Option.none => []

/-- A plain keyword field name: non-empty, alphanumeric/underscore, and
not all digits (all-digit and empty names are positional / auto-numbered
fields in Python). -/
def simpleName (n : List Char) : Bool :=
  !n.isEmpty && n.all (fun c => c.isAlpha || c.isDigit || c = '_') &&
    !n.all Char.isDigit

/-- A well-formed template: the scan succeeds and every replacement field
is a plain keyword name. -/
def templateOk (t : List Char) : Bool :=
  match tokenize t with
  | some toks => (tokNames toks).all simpleName
  | Option.none => false

theorem renderToks_ok_of_all_present (args : List (List Char × List Char))
    (toks : List FormatTok)
    (hnames : ∀ n ∈ tokNames toks, simpleName n = true)
    (hall : ∀ n ∈ tokNames toks, (lookupArg n args).isSome) :
    ∃ out, renderToks args toks = Except.ok out := by
  induction toks with
  | nil => exact ⟨[], rfl⟩
  | cons tok rest ih =>
    cases tok with
    | lit c =>
      obtain ⟨out, hout⟩ := ih (fun n hn => hnames n (by simpa [tokNames] using hn))
        (fun n hn => hall n (by simpa [tokNames] using hn))
      exact ⟨c :: out, by simp [renderToks, hout, Except.map]⟩
    | field n =>
      have hs := hnames n (by simp [tokNames])
      have hd : n.all Char.isDigit = false := by
        simp only [simpleName, Bool.and_eq_true, Bool.not_eq_true'] at hs
        exact hs.2
      obtain ⟨v, hv⟩ := Option.isSome_iff_exists.mp (hall n (by simp [tokNames]))
      obtain ⟨out, hout⟩ := ih (fun m hm => hnames m (by simp [tokNames, hm]))
        (fun m hm => hall m (by simp [tokNames, hm]))
      exact ⟨v ++ out, by simp [renderToks, hd, hv, hout, Except.map]⟩

theorem renderToks_missing (args : List (List Char × List Char))
    (toks : List FormatTok)
    (hnames : ∀ n ∈ tokNames toks, simpleName n = true)
    (hmiss : ∃ n, n ∈ tokNames toks ∧ lookupArg n args = Option.none) :
    ∃ n, n ∈ tokNames toks ∧ lookupArg n args = Option.none ∧
      renderToks args toks = Except.error (FormatErr.missingParameter n) := by
  induction toks with
  | nil =>
    obtain ⟨n, hn, _⟩ := hmiss
    simp [tokNames] at hn
  | cons tok rest ih =>
    cases tok with
    | lit c =>
      obtain ⟨n, hn, hnone, hrest⟩ := ih
        (fun m hm => hnames m (by simpa [tokNames] using hm))
        (by obtain ⟨n, hn, hnone⟩ := hmiss
            exact ⟨n, by simpa [tokNames] using hn, hnone⟩)
      exact ⟨n, by simpa [tokNames] using hn, hnone, by simp [renderToks, hrest, Except.map]⟩
    | field m =>
      have hs := hnames m (by simp [tokNames])
      have hd : m.all Char.isDigit = false := by
        simp only [simpleName, Bool.and_eq_true, Bool.not_eq_true'] at hs
        exact hs.2
      cases hl : lookupArg m args with
      | none => exact ⟨m, by simp [tokNames], hl, by simp [renderToks, hd, hl, Except.map]⟩
      | some v =>
        have hmiss' : ∃ n, n ∈ tokNames rest ∧ lookupArg n args = Option.none := by
          obtain ⟨n, hn, hnone⟩ := hmiss
          rcases (by simpa [tokNames] using hn : n = m ∨ n ∈ tokNames rest) with rfl | hn'
          · rw [hl] at hnone; cases hnone
          · exact ⟨n, hn', hnone⟩
        obtain ⟨n, hn, hnone, hrest⟩ := ih
          (fun q hq => hnames q (by simp [tokNames, hq])) hmiss'
        exact ⟨n, by simp [tokNames, hn], hnone, by simp [renderToks, hd, hl, hrest, Except.map]⟩

theorem isInfix_cons_of {α : Type} (a : α) (l r : List α) (h : l <:+: r) :
    l <:+: a :: r := by
  obtain ⟨s, t, hst⟩ := h
  exact ⟨a :: s, t, by simp [hst]⟩

theorem scanFormat_no_lit_lbrace (mode : Option (List Char)) (t : List Char) :
    ∀ toks, scanFormat mode t = some toks → ¬ (['{', '{'] <:+: t) →
      FormatTok.lit '{' ∉ toks := by
  induction mode, t using scanFormat.induct with
  | case1 =>
    intro toks h _ hmem
    rw [scanFormat.eq_1] at h
    cases h
    simp at hmem
  | case2 rest ih =>
    intro _ _ hni _
    exact hni (List.IsPrefix.isInfix ⟨rest, rfl⟩)
  | case3 rest hside ih =>
    intro toks h hni hmem
    rw [scanFormat.eq_3 rest hside] at h
    exact ih toks h (fun hsub => hni (isInfix_cons_of '{' _ _ hsub)) hmem
  | case4 rest ih =>
    intro toks h hni hmem
    rw [scanFormat.eq_4] at h
    cases hr : scanFormat Option.none rest with
    | none => rw [hr] at h; cases h
    | some ts =>
      rw [hr, Option.map_some'] at h
      cases h
      simp only [List.mem_cons] at hmem
      rcases hmem with hmem | hmem
      · cases hmem
      · exact ih ts hr
          (fun hsub => hni (isInfix_cons_of '}' _ _ (isInfix_cons_of '}' _ _ hsub))) hmem
  | case5 tail hside =>
    intro toks h _ _
    rw [scanFormat.eq_5 tail hside] at h
    cases h
  | case6 c rest hs1 hs2 hs3 hs4 ih =>
    intro toks h hni hmem
    rw [scanFormat.eq_6 c rest hs1 hs2 hs3 hs4] at h
    cases hr : scanFormat Option.none rest with
    | none => rw [hr] at h; cases h
    | some ts =>
      rw [hr, Option.map_some'] at h
      cases h
      simp only [List.mem_cons] at hmem
      rcases hmem with hmem | hmem
      · exact hs2 (by cases hmem; rfl)
      · exact ih ts hr (fun hsub => hni (isInfix_cons_of c _ _ hsub)) hmem
  | case7 val =>
    intro toks h _ _
    rw [scanFormat.eq_7] at h
    cases h
  | case8 acc rest ih =>
    intro toks h hni hmem
    rw [scanFormat.eq_8] at h
    cases hr : scanFormat Option.none rest with
    | none => rw [hr] at h; cases h
    | some ts =>
      rw [hr, Option.map_some'] at h
      cases h
      simp only [List.mem_cons] at hmem
      rcases hmem with hmem | hmem
      · cases hmem
      · exact ih ts hr (fun hsub => hni (isInfix_cons_of '}' _ _ hsub)) hmem
  | case9 acc c rest hside ih =>
    intro toks h hni hmem
    rw [scanFormat.eq_9 acc c rest hside] at h
    exact ih toks h (fun hsub => hni (isInfix_cons_of c _ _ hsub)) hmem

theorem lookupArg_mem (n v : List Char) (args : List (List Char × List Char))
    (h : lookupArg n args = some v) : (n, v) ∈ args := by
  induction args with
  | nil => cases h
  | cons e rest ih =>
    obtain ⟨k, w⟩ := e
    by_cases hk : k = n
    · subst hk
      rw [lookupArg, if_pos rfl] at h
      cases h
      exact List.mem_cons_self _ _
    · rw [lookupArg, if_neg hk] at h
      exact List.mem_cons_of_mem _ (ih h)

theorem renderToks_no_lbrace (args : List (List Char × List Char))
    (toks : List FormatTok)
    (hlit : FormatTok.lit '{' ∉ toks)
    (hvals : ∀ e ∈ args, '{' ∉ e.2) :
    ∀ out, renderToks args toks = Except.ok out → '{' ∉ out := by
  induction toks with
  | nil =>
    intro out hout
    cases hout
    simp
  | cons tok rest ih =>
    intro out hout
    cases tok with
    | lit c =>
      cases hr : renderToks args rest with
      | error e => simp [renderToks, hr, Except.map] at hout
      | ok out' =>
        have hco : out = c :: out' := by
          simpa [renderToks, hr, Except.map] using hout.symm
        subst hco
        have hc : c ≠ '{' := by
          intro hc
          subst hc
          exact hlit (List.mem_cons_self _ _)
        intro hmem
        simp only [List.mem_cons] at hmem
        rcases hmem with hmem | hmem
        · exact hc hmem.symm
        · exact ih (fun hm => hlit (List.mem_cons_of_mem _ hm)) out' hr hmem
    | field n =>
      by_cases hd : n.all Char.isDigit
      · simp [renderToks, hd] at hout
      · cases hl : lookupArg n args with
        | none => simp [renderToks, hd, hl] at hout
        | some v =>
          cases hr : renderToks args rest with
          | error e => simp [renderToks, hd, hl, hr, Except.map] at hout
          | ok out' =>
            have hco : out = v ++ out' := by
              simpa [renderToks, hd, hl, hr, Except.map] using hout.symm
            subst hco
            intro hmem
            rcases List.mem_append.mp hmem with hmem | hmem
            · exact hvals (n, v) (lookupArg_mem n v args hl) hmem
            · exact ih (fun hm => hlit (List.mem_cons_of_mem _ hm)) out' hr hmem

theorem pyFormat_ok_of_all_present (t : List Char)
    (args : List (List Char × List Char))
    (hok : templateOk t = true)
    (hall : ∀ n ∈ placeholders t, (lookupArg n args).isSome) :
    ∃ out, pyFormat t args = Except.ok out := by
  cases htok : tokenize t with
  | none => simp [templateOk, htok] at hok
  | some toks =>
    have hnames : ∀ n ∈ tokNames toks, simpleName n = true := by
      have := hok
      simp only [templateOk, htok, List.all_eq_true] at this
      intro n hn
      exact this n hn
    have hplh : placeholders t = tokNames toks := by
      simp [placeholders, htok]
    obtain ⟨out, hout⟩ := renderToks_ok_of_all_present args toks hnames
      (by rwa [hplh] at hall)
    exact ⟨out, by simp [pyFormat, htok, hout]⟩

/-! ## Formatting claims -/

/-- C3(amended): for every Prompt whose template is well-formed with
plain keyword placeholder fields, `format` fails with the
MissingParameter kind (`KeyError`) exactly when some placeholder lacks a
matching argument, naming a missing placeholder; when every placeholder
has an argument, `format` succeeds. -/
theorem prompt_format_missing_parameter (p : Prompt)
    (args : List (List Char × List Char))
    (hok : templateOk p.template = true) :
    ((∃ n, n ∈ placeholders p.template ∧ lookupArg n args = Option.none) →
      ∃ n, n ∈ placeholders p.template ∧ lookupArg n args = Option.none ∧
        p.format args = Except.error (FormatErr.missingParameter n)) ∧
    ((∀ n ∈ placeholders p.template, (lookupArg n args).isSome) →
      ∃ out, p.format args = Except.ok out) := by
  constructor
  · intro hmiss
    cases htok : tokenize p.template with
    | none => simp [templateOk, htok] at hok
    | some toks =>
      have hnames : ∀ n ∈ tokNames toks, simpleName n = true := by
        have := hok
        simp only [templateOk, htok, List.all_eq_true] at this
        intro n hn
        exact this n hn
      have hplh : placeholders p.template = tokNames toks := by
        simp [placeholders, htok]
      obtain ⟨n, hn, hnone, hrend⟩ := renderToks_missing args toks hnames
        (by rwa [hplh] at hmiss)
      refine ⟨n, by rwa [hplh], hnone, ?_⟩
      simp [Prompt.format, pyFormat, htok, hrend]
  · intro hall
    exact pyFormat_ok_of_all_present p.template args hok hall

/-- A prompt whose template is `"Hello {a}"`. -/
def pHello : Prompt :=
  ⟨"Hello {a}".data, PromptCategory.general, "hello", "greeting", [], [], [], "1.0"⟩

theorem prompt_format_missing_parameter_witness :
    (∃ n, n ∈ placeholders pHello.template ∧ lookupArg n [] = Option.none ∧
      pHello.format [] = Except.error (FormatErr.missingParameter n)) ∧
    (∃ out, pHello.format [(['a'], ['h', 'i'])] = Except.ok out) := by
  constructor
  · exact (prompt_format_missing_parameter pHello [] (by decide)).1
      (by refine ⟨['a'], by decide, by decide⟩)
  · exact (prompt_format_missing_parameter pHello [(['a'], ['h', 'i'])] (by decide)).2
      (by decide)

/-- A prompt whose template is the single character `\x7d` (an unbalanced
closing brace). -/
def pBadBrace : Prompt :=
  ⟨['}'], PromptCategory.general, "bad", "unbalanced", [], [], [], "1.0"⟩

/-- C3 as stated is false: the template `"\x7d"` has no placeholders, so
every placeholder has a matching argument, yet `format` fails — CPython
raises `ValueError("Single '\x7d' encountered in format string")`, not a
MissingParameter-kind `KeyError`. -/
theorem prompt_format_missing_parameter_counterexample :
    placeholders pBadBrace.template = [] ∧
    pBadBrace.format [] = Except.error FormatErr.valueError := by
  exact ⟨rfl, rfl⟩

/-- C7(amended): for a well-formed template containing no escaped-brace
sequence `\x7b\x7b`, if every argument value is brace-free and every
placeholder has a matching argument, then `format` succeeds and its
output contains no literal `\x7b name \x7d` token for any argument name. -/
theorem prompt_format_no_placeholder_tokens (p : Prompt)
    (args : List (List Char × List Char))
    (hok : templateOk p.template = true)
    (hesc : ¬ (['{', '{'] <:+: p.template))
    (hvals : ∀ e ∈ args, '{' ∉ e.2)
    (hall : ∀ n ∈ placeholders p.template, (lookupArg n args).isSome) :
    ∃ out, p.format args = Except.ok out ∧
      ∀ e ∈ args, ¬ (('{' :: (e.1 ++ ['}'])) <:+: out) := by
  obtain ⟨out, hout⟩ := pyFormat_ok_of_all_present p.template args hok hall
  refine ⟨out, hout, ?_⟩
  cases htok : tokenize p.template with
  | none => simp [templateOk, htok] at hok
  | some toks =>
    have hrend : renderToks args toks = Except.ok out := by
      have := hout
      simpa [pyFormat, htok] using this
    have hlit : FormatTok.lit '{' ∉ toks :=
      scanFormat_no_lit_lbrace Option.none p.template toks htok hesc
    have hnol : '{' ∉ out := renderToks_no_lbrace args toks hlit hvals out hrend
    intro e _ hinf
    exact hnol (hinf.subset (by simp))

/-- C7 as stated is false: formatting the template `"\x7ba\x7d"` with the
argument `a := "\x7ba\x7d"` supplies every placeholder, yet the output is
the literal token `"\x7ba\x7d"` for the argument name `a` — Python
substitutes the value verbatim, so values containing braces (or escaped
braces in the template) reintroduce `\x7bname\x7d` tokens. -/
theorem prompt_format_no_placeholder_tokens_counterexample :
    (∀ n ∈ placeholders ['{', 'a', '}'], (lookupArg n [(['a'], ['{', 'a', '}'])]).isSome) ∧
    pyFormat ['{', 'a', '}'] [(['a'], ['{', 'a', '}'])] = Except.ok ['{', 'a', '}'] ∧
    ('{' :: (['a'] ++ ['}'])) <:+: ['{', 'a', '}'] := by
  refine ⟨by decide, by rfl, ⟨[], [], by rfl⟩⟩

theorem prompt_format_no_placeholder_tokens_witness :
    ∃ out, pHello.format [(['a'], ['h', 'i'])] = Except.ok out ∧
      ∀ e ∈ [(['a'], ['h', 'i'])], ¬ (('{' :: (e.1 ++ ['}'])) <:+: out) :=
  prompt_format_no_placeholder_tokens pHello [(['a'], ['h', 'i'])]
    (by decide) (by decide) (by decide) (by decide)

/-! ## LLM client construction (`promptlibrary/llm.py`) -/

/-- The value held by the `provider` field of an `LLMConfig`. Python is
dynamically typed, so the field can hold the two `LLMProvider` enum
members or any other value (`other`, carrying its display text). -/
inductive ProviderValue
| openai
| ollama
| other (display : String)
deriving DecidableEq, Repr

/-- Display text used in the `Unsupported provider: ...` message. -/
def ProviderValue.display : ProviderValue → String
| ProviderValue.openai => "LLMProvider.OPENAI"
| ProviderValue.ollama => "LLMProvider.OLLAMA"
| ProviderValue.other d => d

/-- The `LLMConfig` dataclass. -/
structure LLMConfig where
  provider : ProviderValue
  model : String
  api_key : Option String
  base_url : Option String
  temperature : Rat
  max_tokens : Option Int
deriving DecidableEq, Repr

/-- Errors surfaced by `LLMClient.__init__`: the `ValueError` for an
unknown provider, and `ImportError` when `import ollama` fails. -/
inductive LLMInitError
| unsupportedProvider (msg : String)
| backendUnavailable (modname : String)
deriving DecidableEq, Repr

/-- The backend handle stored in `self.client`. -/
inductive BackendHandle
| openaiClient (api_key : Option String)
| ollamaModule
deriving DecidableEq, Repr

/-- An initialized `LLMClient`. -/
structure LLMClient where
  config : LLMConfig
  client : BackendHandle
deriving DecidableEq, Repr

/-- `LLMClient.__init__`: the `if / elif / else` provider dispatch.
`ollamaInstalled` models whether `import ollama` succeeds. -/
def LLMClient.init (ollamaInstalled : Bool) (config : LLMConfig) :
    Except LLMInitError LLMClient :=
  if config.provider = ProviderValue.openai then
    Except.ok ⟨config, BackendHandle.openaiClient config.api_key⟩
  else if config.provider = ProviderValue.ollama then
    if ollamaInstalled then Except.ok ⟨config, BackendHandle.ollamaModule⟩
    else Except.error (LLMInitError.backendUnavailable "ollama")
  else
    Except.error (LLMInitError.unsupportedProvider
      ("Unsupported provider: " ++ config.provider.display))

/-- C4: a config whose provider is any value outside the two-member
enumeration makes `LLMClient.__init__` itself fail with the
UnsupportedProvider kind (so before any `generate` call), in every
environment (whether or not the ollama backend is importable). -/
theorem llmClient_init_unsupported_provider (ollamaInstalled : Bool)
    (config : LLMConfig) (v : String)
    (h : config.provider = ProviderValue.other v) :
    LLMClient.init ollamaInstalled config =
      Except.error (LLMInitError.unsupportedProvider
        ("Unsupported provider: " ++ v)) := by
  simp [LLMClient.init, h, ProviderValue.display]

/-- A config carrying a provider value outside the enumeration. -/
def cfgFake : LLMConfig :=
  ⟨ProviderValue.other "fake", "gpt-4o", Option.none, Option.none, (7 : Rat) / 10,
   Option.none⟩

theorem llmClient_init_unsupported_provider_witness :
    LLMClient.init true cfgFake =
      Except.error (LLMInitError.unsupportedProvider ("Unsupported provider: " ++ "fake")) :=
  llmClient_init_unsupported_provider true cfgFake "fake" rfl

/-! ## `generate_schema`: fenced-block extraction and JSON parsing

`generate_schema` takes the backend response text, extracts the schema
text (preferring a ```json fenced block, then any fenced block, else the
raw text), parses it with `json.loads`, and wraps a `JSONDecodeError` in
`ValueError(f"Failed to parse generated schema: \x7be\x7d")`. -/

/-- Suffix after the first occurrence of `pat` (whole-list fallback is
irrelevant: callers guard with an occurrence check). -/
def afterFirst (pat : List Char) : List Char → List Char
| [] => []
| c :: rest =>
  if pat <+: (c :: rest) then (c :: rest).drop pat.length
  else afterFirst pat rest

/-- Prefix before the first occurrence of `pat` (the whole list when
`pat` does not occur). -/
def takeBeforeFirst (pat : List Char) : List Char → List Char
| [] => []
| c :: rest =>
  if pat <+: (c :: rest) then []
  else c :: takeBeforeFirst pat rest

/-- Python `str.strip()` whitespace predicate. -/
def isPySpace (c : Char) : Bool :=
  c = ' ' || c = '\t' || c = '\n' || c = '\r' || c = '\x0b' || c = '\x0c'

/-- Python `str.strip()`. -/
def pyStrip (s : List Char) : List Char :=
  ((s.dropWhile isPySpace).reverse.dropWhile isPySpace).reverse

/-- The ```json fence marker. -/
def jsonFence : List Char := "```json".data

/-- The plain ``` fence marker. -/
def fence : List Char := "```".data

/-- The extraction step of `generate_schema`:
`if "```json" in s: s.split("```json")[1].split("```")[0].strip()`
`elif "```" in s: s.split("```")[1].split("```")[0].strip()`, else `s`.
`split(m)[1].split("```")[0]` equals "text after the first `m`, cut at
the next ``` fence": `split(m)[1]` ends at the second occurrence of `m`,
and since ``` is a prefix of every occurrence of `m`, cutting at the
first ``` afterwards lands at or before that same spot. -/
def extractSchemaStr (s : List Char) : List Char :=
  if jsonFence <:+: s then
    pyStrip (takeBeforeFirst fence (afterFirst jsonFence s))
  else if fence <:+: s then
    pyStrip (takeBeforeFirst fence (afterFirst fence s))
  else s

/-- Parsed JSON values (`json.loads` output). Numbers keep their raw
lexeme, since no claim computes with numeric values. -/
inductive Json
| null
| bool (b : Bool)
| num (lexeme : List Char)
| str (s : List Char)
| arr (xs : List Json)
| obj (kvs : List (List Char × Json))

/-- JSON whitespace. -/
def jsonWs (c : Char) : Bool :=
  c = ' ' || c = '\t' || c = '\n' || c = '\r'

/-- Skip JSON whitespace. -/
def skipWs (s : List Char) : List Char := s.dropWhile jsonWs

/-- Hexadecimal digit value. -/
def hexVal (c : Char) : Option Nat :=
  if '0' ≤ c ∧ c ≤ '9' then some (c.toNat - '0'.toNat)
  else if 'a' ≤ c ∧ c ≤ 'f' then some (c.toNat - 'a'.toNat + 10)
  else if 'A' ≤ c ∧ c ≤ 'F' then some (c.toNat - 'A'.toNat + 10)
  else Option.none

/-- Parse the body of a JSON string after the opening quote; returns the
decoded characters and the remainder after the closing quote. -/
def parseStringBody : List Char → Except String (List Char × List Char)
| [] => Except.error "Unterminated string"
| '"' :: rest => Except.ok ([], rest)
| '\\' :: rest =>
  match rest with
  | [] => Except.error "Unterminated string"
  | e :: rest' =>
    if e = 'u' then
      match rest' with
      | h1 :: h2 :: h3 :: h4 :: rest2 =>
        match hexVal h1, hexVal h2, hexVal h3, hexVal h4 with
        | some a, some b, some c, some d =>
          (match parseStringBody rest2 with
            | Except.ok (cs, rem) =>
              Except.ok (Char.ofNat (((a * 16 + b) * 16 + c) * 16 + d) :: cs, rem)
            | Except.error er => Except.error er)
        | _, _, _, _ => Except.error "Invalid \\uXXXX escape"
      | _ => Except.error "Invalid \\uXXXX escape"
    else
      match (if e = '"' then some '"'
        else if e = '\\' then some '\\'
        else if e = '/' then some '/'
        else if e = 'b' then some (Char.ofNat 8)
        else if e = 'f' then some (Char.ofNat 12)
        else if e = 'n' then some '\n'
        else if e = 'r' then some '\r'
        else if e = 't' then some '\t'
        else Option.none) with
      | some c =>
        (match parseStringBody rest' with
          | Except.ok (cs, rem) => Except.ok (c :: cs, rem)
          | Except.error er => Except.error er)
      | Option.none => Except.error "Invalid \\escape"
| c :: rest =>
  match parseStringBody rest with
  | Except.ok (cs, rem) => Except.ok (c :: cs, rem)
  | Except.error er => Except.error er

/-- Parse a JSON number lexeme (`-?(0|[1-9][0-9]*)(.[0-9]+)?([eE][+-]?[0-9]+)?`),
returning the lexeme and the remainder; callers ensure the input starts
with `-` or a digit. -/
def parseNumber (s : List Char) : Except String (List Char × List Char) :=
  let pair := match s with
    | '-' :: r => (['-'], r)
    | _ => (([] : List Char), s)
  let neg := pair.1
  let s1 := pair.2
  let intPart :=
    match s1 with
    | '0' :: _ => ['0']
    | _ => s1.takeWhile Char.isDigit
  if intPart.isEmpty then Except.error "Expecting value"
  else
    let s2 := s1.drop intPart.length
    let fpair := match s2 with
      | '.' :: r =>
        let ds := r.takeWhile Char.isDigit
        if ds.isEmpty then (([] : List Char), s2)
        else ('.' :: ds, r.dropWhile Char.isDigit)
      | _ => ([], s2)
    let frac := fpair.1
    let s3 := fpair.2
    let epair := match s3 with
      | e :: r =>
        if e = 'e' ∨ e = 'E' then
          match r with
          | sgn :: r2 =>
            if sgn = '+' ∨ sgn = '-' then
              let ds := r2.takeWhile Char.isDigit
              if ds.isEmpty then (([] : List Char), s3)
              else (e :: sgn :: ds, r2.dropWhile Char.isDigit)
            else
              let ds := r.takeWhile Char.isDigit
              if ds.isEmpty then (([] : List Char), s3)
              else (e :: ds, r.dropWhile Char.isDigit)
          | [] => (([] : List Char), s3)
        else ([], s3)
      | [] => ([], s3)
    Except.ok (neg ++ intPart ++ frac ++ epair.1, epair.2)

/-- Python-dict insertion for object members (duplicate keys keep the
first position, last value, as in `json.loads`). -/
def objInsert (k : List Char) (v : Json) : List (List Char × Json) → List (List Char × Json)
| [] => [(k, v)]
| (k', v') :: rest => if k' = k then (k, v) :: rest else (k', v') :: objInsert k v rest

mutual

/-- Parse one JSON value (fueled recursive-descent model of the
`json.loads` grammar; error strings mirror `JSONDecodeError` messages). -/
def parseJsonVal : Nat → List Char → Except String (Json × List Char)
| 0, _ => Except.error "Nesting exhausted"
| Nat.succ fuel, s0 =>
  match skipWs s0 with
  | [] => Except.error "Expecting value"
  | '{' :: rest => parseObjBody fuel [] rest
  | '[' :: rest => parseArrBody fuel [] rest
  | '"' :: rest =>
    (match parseStringBody rest with
      | Except.ok (cs, rem) => Except.ok (Json.str cs, rem)
      | Except.error e => Except.error e)
  | 't' :: rest =>
    if "rue".data <+: rest then Except.ok (Json.bool true, rest.drop 3)
    else Except.error "Expecting value"
  | 'f' :: rest =>
    if "alse".data <+: rest then Except.ok (Json.bool false, rest.drop 4)
    else Except.error "Expecting value"
  | 'n' :: rest =>
    if "ull".data <+: rest then Except.ok (Json.null, rest.drop 3)
    else Except.error "Expecting value"
  | c :: rest =>
    if c = '-' ∨ c.isDigit then
      match parseNumber (c :: rest) with
      | Except.ok (lex, rem) => Except.ok (Json.num lex, rem)
      | Except.error e => Except.error e
    else Except.error "Expecting value"

/-- Parse object members after `\x7b` (with the members accumulated so far). -/
def parseObjBody : Nat → List (List Char × Json) → List Char → Except String (Json × List Char)
| 0, _, _ => Except.error "Nesting exhausted"
| Nat.succ fuel, acc, s0 =>
  match skipWs s0 with
  | '}' :: rest =>
    if acc.isEmpty then Except.ok (Json.obj [], rest)
    else Except.error "Expecting property name enclosed in double quotes"
  | '"' :: rest =>
    (match parseStringBody rest with
      | Except.ok (key, rem) =>
        (match skipWs rem with
          | ':' :: rem2 =>
            (match parseJsonVal fuel rem2 with
              | Except.ok (v, rem3) =>
                (match skipWs rem3 with
                  | ',' :: rem4 => parseObjBody fuel (objInsert key v acc) rem4
                  | '}' :: rem4 => Except.ok (Json.obj (objInsert key v acc), rem4)
                  | _ => Except.error "Expecting comma delimiter")
              | Except.error e => Except.error e)
          | _ => Except.error "Expecting colon delimiter")
      | Except.error e => Except.error e)
  | _ => Except.error "Expecting property name enclosed in double quotes"

/-- Parse array elements after `[` (with the elements accumulated so far). -/
def parseArrBody : Nat → List Json → List Char → Except String (Json × List Char)
| 0, _, _ => Except.error "Nesting exhausted"
| Nat.succ fuel, acc, s0 =>
  match skipWs s0 with
  | ']' :: rest =>
    if acc.isEmpty then Except.ok (Json.arr [], rest)
    else Except.error "Expecting value"
  | s =>
    match parseJsonVal fuel s with
    | Except.ok (v, rem) =>
      (match skipWs rem with
        | ',' :: rem2 => parseArrBody fuel (acc ++ [v]) rem2
        | ']' :: rem2 => Except.ok (Json.arr (acc ++ [v]), rem2)
        | _ => Except.error "Expecting comma delimiter")
    | Except.error e => Except.error e

end

/-- `json.loads`: parse one value surrounded by optional whitespace, and
reject trailing data. -/
def pyJsonLoads (s : List Char) : Except String Json :=
  match parseJsonVal (2 * s.length + 4) s with
  | Except.error e => Except.error e
  | Except.ok (j, rest) =>
    if (skipWs rest).isEmpty then Except.ok j
    else Except.error "Extra data"

/-- The error raised by `generate_schema` when parsing fails:
`ValueError(f"Failed to parse generated schema: \x7be\x7d")`. -/
inductive SchemaGenError
| schemaParseError (msg : String)

/-- The response-processing tail of `generate_schema`: extract the schema
text from the backend response, `json.loads` it, and wrap any decode
error. -/
def generateSchemaFromResponse (response : List Char) : Except SchemaGenError Json :=
  match pyJsonLoads (extractSchemaStr response) with
  | Except.ok j => Except.ok j
  | Except.error e =>
    Except.error (SchemaGenError.schemaParseError
      ("Failed to parse generated schema: " ++ e))

/-! ## Extraction and parse-contract claims -/

/-- The concrete backend response of the spec scenario. -/
def scenarioResponse : List Char :=
  "Here:\n```json\n\x7b\"name\":\"f\",\"description\":\"d\",\"parameters\":\x7b\"type\":\"object\",\"properties\":\x7b\x7d\x7d\x7d\n```".data

/-- C2: the extraction step prefers the first ```json fenced block's
contents, then the first plain ``` fenced block's contents, then the raw
response; and on the spec's concrete response the extracted text parses
to the map with name "f", description "d" and object parameters. -/
theorem generate_schema_extraction_policy (s : List Char) :
    (jsonFence <:+: s →
      extractSchemaStr s = pyStrip (takeBeforeFirst fence (afterFirst jsonFence s))) ∧
    (¬ (jsonFence <:+: s) → fence <:+: s →
      extractSchemaStr s = pyStrip (takeBeforeFirst fence (afterFirst fence s))) ∧
    (¬ (fence <:+: s) → extractSchemaStr s = s) ∧
    pyJsonLoads (extractSchemaStr scenarioResponse) =
      Except.ok (Json.obj
        [("name".data, Json.str "f".data),
         ("description".data, Json.str "d".data),
         ("parameters".data, Json.obj
           [("type".data, Json.str "object".data),
            ("properties".data, Json.obj [])])]) := by
  refine ⟨?_, ?_, ?_, by rfl⟩
  · intro h
    simp [extractSchemaStr, h]
  · intro hj hf
    simp [extractSchemaStr, hj, hf]
  · intro hf
    have hj : ¬ (jsonFence <:+: s) := fun h =>
      hf (List.IsInfix.trans (List.IsPrefix.isInfix (by decide)) h)
    simp [extractSchemaStr, hj, hf]

theorem generate_schema_extraction_policy_witness :
    extractSchemaStr "plain text".data = "plain text".data ∧
    extractSchemaStr scenarioResponse =
      pyStrip (takeBeforeFirst fence (afterFirst jsonFence scenarioResponse)) :=
  ⟨(generate_schema_extraction_policy "plain text".data).2.2.1 (by decide),
   (generate_schema_extraction_policy scenarioResponse).1 (by decide)⟩

/-- C6: after extraction, `generate_schema` returns the parsed structure
when the extracted text is valid JSON, and otherwise fails with the
SchemaParseError kind whose message embeds the raw parse failure detail. -/
theorem generate_schema_parse_contract (response : List Char) :
    (∀ j, pyJsonLoads (extractSchemaStr response) = Except.ok j →
      generateSchemaFromResponse response = Except.ok j) ∧
    (∀ e, pyJsonLoads (extractSchemaStr response) = Except.error e →
      generateSchemaFromResponse response =
        Except.error (SchemaGenError.schemaParseError
          ("Failed to parse generated schema: " ++ e))) := by
  constructor
  · intro j h
    simp [generateSchemaFromResponse, h]
  · intro e h
    simp [generateSchemaFromResponse, h]

theorem generate_schema_parse_contract_witness :
    generateSchemaFromResponse "not json".data =
      Except.error (SchemaGenError.schemaParseError
        "Failed to parse generated schema: Expecting value") :=
  (generate_schema_parse_contract "not json".data).2 "Expecting value" (by rfl)

end PromptLibrary
